import Mathlib

/-!
Verification of the ScholarFlow turn-orchestration core against its
natural-language specification.

The definitions below are a shallow embedding of the TypeScript source:

* `src/unnamed/part_002` (`types.ts`): the data model.
* `src/unnamed/part_000`: the `App` component, which ships in two variants
  separated by a document marker.  Variant 1 (lines 14-529) assembles a text
  context from each file's `processedText` and launches narration, diagram and
  illustration regeneration with `.then` (detached).  Variant 2 (lines
  537-1064) passes the session's raw files to the completion call and `await`s
  narration, diagram and illustration in sequence.
* `src/services/geminiService.ts`: the Inference Provider adapter.
* `src/services/mockFirebase.ts`: the Session Store.

JavaScript strings are modelled as Lean `String` (the ids and payloads in
question are ASCII, where `localeCompare` agrees with lexicographic order and
`.length` agrees with the codepoint count), timestamps (`Date.now()`) as `Nat`,
absent (`undefined`) fields as `Option`, and each external call's outcome as an
explicit argument (`Except Unit _` for a call that can reject, or the value the
promise resolves with).
-/

namespace ScholarFlow

/-- `MessageRole` from types.ts: `'user' | 'model'`. -/
inductive MessageRole
  | user
  | model
deriving DecidableEq, Repr

/-- `Message` from types.ts. -/
structure Message where
  id : String
  role : MessageRole
  content : String
  timestamp : Nat
deriving DecidableEq, Repr

/-- `UploadedFile` from types.ts, merged with the `ProcessedFile` extension of
part_000 variant 1 (`processedText?: string`).  `data` and `processedText` are
optional in the source and are modelled as `Option String`. -/
structure UploadedFile where
  id : String
  name : String
  type : String
  size : String
  uploadedAt : Nat
  data : Option String
  processedText : Option String
deriving DecidableEq, Repr

/-- `StudySession` from types.ts. -/
structure StudySession where
  id : String
  topic : String
  messages : List Message
  mermaidCode : String
  currentImageUrl : Option String
  files : List UploadedFile
  isPinned : Bool
deriving DecidableEq, Repr

/-- The shape mockFirebase.ts stores: a `StudySession` plus `userId` and
`createdAt` (see `createSession`). -/
structure StoredSession where
  id : String
  topic : String
  messages : List Message
  mermaidCode : String
  currentImageUrl : Option String
  files : List UploadedFile
  isPinned : Bool
  userId : String
  createdAt : Nat
deriving DecidableEq, Repr

/-- JavaScript `Array.prototype.join(sep)`: empty array gives `""`, a single
element is returned as-is, and `sep` is inserted between every two consecutive
elements. -/
def joinSep (sep : String) : List String → String
  | [] => ""
  | [a] => a
  | a :: b :: rest => a ++ sep ++ joinSep sep (b :: rest)

/-- Context assembly of part_000 variant 1, lines 118-120:
`currentSession.files.map(f => f.processedText || "").join("\n\n")`.
`f.processedText || ""` maps an absent (or empty) summary to `""`. -/
def assembleContext (files : List UploadedFile) : String :=
  joinSep "\n\n" (files.map (fun f => f.processedText.getD ""))

/-- The strip condition of mockFirebase.ts line 166:
`fileToStore.data && fileToStore.data.length > 200000`
(an absent or empty `data` is falsy). -/
def shouldStripData (f : UploadedFile) : Bool :=
  match f.data with
  | some d => decide (d.length > 200000)
  | none => false

/-- The record actually persisted by `saveFileToSession` (mockFirebase.ts lines
163-171): a copy of the argument, with `data` set to `undefined` when the
strip condition holds.  The copy (`{ ...fileData }`) leaves the caller's
record untouched. -/
def storedFileCopy (f : UploadedFile) : UploadedFile :=
  if shouldStripData f then { f with data := none } else f

/-- `saveFileToSession` from mockFirebase.ts lines 154-181, as a pure function
on the serialized session list: the first session whose `id` matches gets
`storedFileCopy fileData` pushed onto its `files`; with no match the store is
unchanged. -/
def saveFileToSession : List StoredSession → String → UploadedFile → List StoredSession
  | [], _, _ => []
  | s :: rest, sessionId, fileData =>
    if s.id = sessionId then
      { s with files := s.files ++ [storedFileCopy fileData] } :: rest
    else
      s :: saveFileToSession rest sessionId fileData

/-- One element of the `contents` array sent to the provider: either a text
part or an inline raw-data part (geminiService.ts lines 40-45, 48-57). -/
inductive GenPart
  | text (s : String)
  | inlineData (mimeType : String) (data : String)
deriving DecidableEq, Repr

/-- One entry of the `contents` array: a role plus its parts. -/
structure GenContent where
  role : String
  parts : List GenPart
deriving DecidableEq, Repr

/-- One history entry as passed to `generateTeacherResponse`
(`{ role, content }`). -/
structure ChatTurn where
  role : String
  content : String
deriving DecidableEq, Repr

/-- JavaScript `String.prototype.split` with a one-character separator, on
character lists (the library `String.splitOn` is byte-position based and does
not reduce in the kernel; this structural version computes the same splits). -/
def splitOnChar (sep : Char) : List Char → List (List Char)
  | [] => [[]]
  | c :: rest =>
    let r := splitOnChar sep rest
    if c = sep then [] :: r
    else
      match r with
      | [] => [[c]]
      | h :: t => (c :: h) :: t

/-- Left-to-right, non-overlapping removal of every occurrence of `pat`
(JavaScript `.replace(pat-as-global-regex, "")` for a literal pattern).  The
fuel argument is only a structural-recursion bound; with `fuel ≥ s.length`
(as `removeOccs` passes) it is never exhausted, since every step consumes at
least one character. -/
def removeOccsAux (pat : List Char) : Nat → List Char → List Char
  | 0, _ => []
  | _, [] => []
  | fuel + 1, c :: rest =>
    if pat.isPrefixOf (c :: rest) ∧ 1 ≤ pat.length then
      removeOccsAux pat fuel ((c :: rest).drop pat.length)
    else
      c :: removeOccsAux pat fuel rest

/-- Remove every occurrence of `pat` from `s`. -/
def removeOccs (pat s : List Char) : List Char := removeOccsAux pat s.length s

/-- The whitespace characters JavaScript `String.prototype.trim` strips, for
the ASCII range these inputs use. -/
def isJsWhitespace (c : Char) : Bool :=
  c = ' ' ∨ c = '\t' ∨ c = '\n' ∨ c = '\r' ∨ c = '\x0B' ∨ c = '\x0C'

/-- Strip leading and trailing whitespace from a character list. -/
def trimChars (s : List Char) : List Char :=
  ((s.dropWhile isJsWhitespace).reverse.dropWhile isJsWhitespace).reverse

/-- JavaScript `String.prototype.trim` (the library `String.trim` is
byte-position based and does not reduce in the kernel). -/
def jsTrim (s : String) : String := ⟨trimChars s.data⟩

/-- geminiService.ts line 38: `f.data.split(',')[1] || f.data` — the payload
after the first comma of a data URL, falling back to the whole string when
there is no comma or the part after it is empty. -/
def dataUrlPayload (d : String) : String :=
  match (splitOnChar ',' d.data).get? 1 with
  | some s => if s = [] then d else ⟨s⟩
  | none => d

/-- geminiService.ts lines 35-46: the inline raw-data part built for one file.
`if (!f.data) return null` drops a file whose `data` is absent or empty;
`f.type || 'application/pdf'` defaults an empty MIME type. -/
def filePart (f : UploadedFile) : Option GenPart :=
  match f.data with
  | none => none
  | some d =>
    if d = "" then none
    else some (GenPart.inlineData (if f.type = "" then "application/pdf" else f.type)
      (dataUrlPayload d))

/-- geminiService.ts lines 48-57: the `contents` array of the completion
request — every history entry as a text part, then one user entry holding the
new message followed by the inline raw-data part of every file that has one. -/
def teacherContents (history : List ChatTurn) (newMessage : String)
    (files : List UploadedFile) : List GenContent :=
  history.map (fun h => ⟨h.role, [GenPart.text h.content]⟩) ++
    [⟨"user", GenPart.text newMessage :: files.filterMap filePart⟩]

/-- All parts of a request, in order. -/
def requestParts (cs : List GenContent) : List GenPart :=
  (cs.map GenContent.parts).flatten

/-- A file record with its raw content erased and everything else intact. -/
def scrubData (f : UploadedFile) : UploadedFile := { f with data := none }

/-- geminiService.ts line 71: the fixed fallback returned when the completion
call rejects. -/
def teacherFallback : String :=
  "The Teacher is having trouble reading the materials. Please try again."

/-- geminiService.ts line 68: the fallback substituted for an empty or absent
`response.text`. -/
def ponderFallback : String := "I\x27m pondering that thought..."

/-- `generateTeacherResponse` from geminiService.ts lines 12-73.  `provider`
is the outcome of `ai.models.generateContent` on a given `contents` array.
With the API key absent the function throws (`Except.error`) before the
`try` block; otherwise a provider rejection is caught and replaced by
`teacherFallback`, and an empty text by `ponderFallback`. -/
def generateTeacherResponse (apiKeyPresent : Bool)
    (provider : List GenContent → Except Unit String)
    (history : List ChatTurn) (newMessage : String) (files : List UploadedFile) :
    Except String String :=
  if apiKeyPresent then
    match provider (teacherContents history newMessage files) with
    | Except.ok t => Except.ok (if t = "" then ponderFallback else t)
    | Except.error _ => Except.ok teacherFallback
  else
    Except.error "API Key Missing"

/-- `generateArchitectFlowchart` from geminiService.ts lines 115-141.
`outcome` is the outcome of the provider call; `response.text || ""` is
covered by `Except.ok` carrying the (possibly empty) text.  On success the
code fences are stripped globally and the result trimmed; key absence and
rejection produce the two fixed fallback diagrams. -/
def generateArchitectFlowchart (apiKeyPresent : Bool) (topic : String)
    (outcome : Except Unit String) : String :=
  if apiKeyPresent then
    match outcome with
    | Except.ok text =>
      jsTrim ⟨removeOccs "```".data (removeOccs "```mermaid".data text.data)⟩
    | Except.error _ => "graph TB\nA[" ++ topic ++ "] --> B[Data Unavailable]"
  else
    "graph TB\nA[" ++ topic ++ "] --> B[No API Key]"

/-- Message roles are serialized as their enum values `'user'` / `'model'`. -/
def roleString : MessageRole → String
  | MessageRole.user => "user"
  | MessageRole.model => "model"

/-- part_000 lines 132 / 648: `currentSession.messages.map(m => ({ role:
m.role, content: m.content }))`. -/
def historyOf (s : StudySession) : List ChatTurn :=
  s.messages.map (fun m => ⟨roleString m.role, m.content⟩)

/-- The `contents` array the variant-2 `processAgentResponse` submits to the
completion call (part_000 lines 647-651): the session's message history, the
new user prompt, and the session's raw files. -/
def teacherRequestV2 (s : StudySession) (userPrompt : String) : List GenContent :=
  teacherContents (historyOf s) userPrompt s.files

/-- A satellite request launched with `.then` in part_000 variant 1 (lines
144-164): it is pending when the turn completes and its result is merged into
session state by its callback whenever it resolves. -/
inductive DetachedTask
  | narration (answer : String)
  | diagram (topic : String) (answer : String)
  | illustration (topic : String) (answer : String)
deriving DecidableEq, Repr

/-- The diagram callback shared by both variants (part_000 lines 155 / 691):
`setSession(prev => prev ? { ...prev, mermaidCode: newMermaid } : null)` —
a wholesale replacement of the `mermaidCode` field of whatever session state
is current when the call resolves. -/
def applyDiagramWrite (newMermaid : String) : Option StudySession → Option StudySession
  | some s => some { s with mermaidCode := newMermaid }
  | none => none

/-- The illustration callback shared by both variants (part_000 lines 162 /
697): wholesale replacement of `currentImageUrl`. -/
def applyImageWrite (newImage : String) : Option StudySession → Option StudySession
  | some s => some { s with currentImageUrl := some newImage }
  | none => none

/-- Modelled from the spec: the Inference Provider capability
`completeText(history, newText, context) -> text` used by part_000 variant 1
(line 131 passes the assembled text context; the geminiService variant whose
third parameter is a text context is not under src/ — the shipped one takes a
file array).  Per the spec (sections 6 and 7) a failure degrades to the fixed
apology string and never raises. -/
def completeText (outcome : Except Unit String) (history : List ChatTurn)
    (newText : String) (context : String) : String :=
  match outcome with
  | Except.ok t => t
  | Except.error _ => teacherFallback

/-- The state and pending work of a completed turn: the session value written
by the awaited phase, plus the satellite tasks still pending at completion. -/
structure TurnResult where
  session : StudySession
  detached : List DetachedTask
deriving DecidableEq, Repr

/-- `processAgentResponse` of part_000 variant 1 (lines 114-165), from the
snapshot it was handed.  The context is assembled from `processedText` only;
the teacher completion is awaited and its answer appended (id
`(Date.now()+1).toString()`, timestamp `Date.now()`, modelled by `now`);
narration (when the toggle is on), diagram and illustration are launched with
`.then` and are pending when the turn completes — their results are not in the
returned session.  The Historian `setTimeout` pause (line 124) only animates
the activity indicator and touches no session state. -/
def processAgentResponseV1 (narrationOn : Bool) (textOutcome : Except Unit String)
    (snapshot : StudySession) (userPrompt : String) (now : Nat) : TurnResult :=
  let contextNotes := assembleContext snapshot.files
  let teacherText := completeText textOutcome (historyOf snapshot) userPrompt contextNotes
  let teacherMsg : Message :=
    ⟨toString (now + 1), MessageRole.model, teacherText, now⟩
  let afterTeacher := { snapshot with messages := snapshot.messages ++ [teacherMsg] }
  { session := afterTeacher
    detached :=
      (if narrationOn then [DetachedTask.narration teacherText] else []) ++
        [DetachedTask.diagram snapshot.topic teacherText,
         DetachedTask.illustration snapshot.topic teacherText] }

/-- `processAgentResponse` of part_000 variant 2 (lines 636-699), from the
snapshot it was handed.  The completion call receives the session's raw files
(line 650); a throw from `generateTeacherResponse` propagates (nothing
catches it).  Narration, diagram and illustration are each *awaited* in
sequence: the diagram and image results are already applied when the turn
completes and no task is left pending.  `imageResult` is the image reference
`generateIllustration` resolves with (its internal URL construction feeds no
claim and is left to the oracle); narration plays audio and writes no session
field. -/
def processAgentResponseV2 (apiKeyPresent narrationOn : Bool)
    (provider : List GenContent → Except Unit String)
    (architectOutcome : Except Unit String) (imageResult : String)
    (snapshot : StudySession) (userPrompt : String) (now : Nat) :
    Except String TurnResult :=
  match generateTeacherResponse apiKeyPresent provider (historyOf snapshot)
      userPrompt snapshot.files with
  | Except.error e => Except.error e
  | Except.ok teacherText =>
    let teacherMsg : Message :=
      ⟨toString (now + 1), MessageRole.model, teacherText, now⟩
    let afterTeacher := { snapshot with messages := snapshot.messages ++ [teacherMsg] }
    let newMermaid := generateArchitectFlowchart apiKeyPresent snapshot.topic architectOutcome
    let afterDiagram :=
      (applyDiagramWrite newMermaid (some afterTeacher)).getD afterTeacher
    let afterImage :=
      (applyImageWrite imageResult (some afterDiagram)).getD afterDiagram
    Except.ok { session := afterImage, detached := [] }

/-- An observable action of `handleSendMessage`, in program order. -/
inductive OrchestratorEvent
  | appendLocal (m : Message)
  | awaitPersistMessage (sessionId : String) (m : Message)
  | launchTurn (snapshot : StudySession) (userPrompt : String)
deriving DecidableEq, Repr

/-- Does the event suspend on a network call? -/
def isAwaitEvent : OrchestratorEvent → Bool
  | OrchestratorEvent.awaitPersistMessage _ _ => true
  | _ => false

/-- Does the event append a user-role message to the session state? -/
def isUserAppend : OrchestratorEvent → Bool
  | OrchestratorEvent.appendLocal m => m.role = MessageRole.user
  | _ => false

/-- `handleSendMessage` from part_000 (lines 100-112 and, identically, lines
622-634): guard `if (!input.trim() || !session) return;`, then an optimistic
local append of the user message (id `Date.now().toString()`, content the
untrimmed input), then `await` of the persistence write, then the fire of
`processAgentResponse` on the updated snapshot (not awaited).  Returns the new
local session state and the trace of actions; on a guard violation nothing
happens and nothing is thrown. -/
def handleSendMessage (input : String) (session : Option StudySession) (now : Nat) :
    Option StudySession × List OrchestratorEvent :=
  match session with
  | none => (session, [])
  | some s =>
    if jsTrim input = "" then (session, [])
    else
      let userMsg : Message := ⟨toString now, MessageRole.user, input, now⟩
      let updatedSession := { s with messages := s.messages ++ [userMsg] }
      (some updatedSession,
        [OrchestratorEvent.appendLocal userMsg,
         OrchestratorEvent.awaitPersistMessage s.id userMsg,
         OrchestratorEvent.launchTurn updatedSession input])

/-- The assistant-message write of `processAgentResponse` (part_000 lines
138-139 / 654-655): `setSession(newSessionState)` where `newSessionState`
extends the turn's *snapshot* — a plain value write that does not read the
live state it replaces. -/
def teacherWriteLive (snapshot : StudySession) (teacherMsg : Message) :
    Option StudySession → Option StudySession :=
  fun _ => some { snapshot with messages := snapshot.messages ++ [teacherMsg] }

/-- The session update of `handleFileUpload` in part_000 variant 1 (lines
192-207): attach the file and append the system notice message, both at the
end. -/
def handleFileUploadUpdate (s : StudySession) (newFile : UploadedFile) (now : Nat) :
    StudySession :=
  let sysMsg : Message :=
    ⟨toString now, MessageRole.model,
      "[System] The Historian has read \"" ++ newFile.name ++
        "\". Summary added to context memory.", now⟩
  { s with files := s.files ++ [newFile], messages := s.messages ++ [sysMsg] }

/-- Timestamps are non-decreasing along the list (adjacent pairs). -/
def timestampsSorted : List Message → Bool
  | [] => true
  | [_] => true
  | a :: b :: rest => (decide (a.timestamp ≤ b.timestamp)) && timestampsSorted (b :: rest)

/-- Lexicographic comparison of character lists: `charListLe x y` holds when
`x` is a prefix of `y` or the first differing character of `x` is smaller. -/
def charListLe : List Char → List Char → Bool
  | [], _ => true
  | _ :: _, [] => false
  | a :: as, b :: bs => if a = b then charListLe as bs else decide (a < b)

/-- `x.localeCompare(y) ≤ 0` for the ASCII session ids of this store, i.e.
lexicographic string comparison. -/
def strLe (x y : String) : Bool := charListLe x.data y.data

/-- The comparator of `getSessions` (mockFirebase.ts lines 100-104), as the
relation "`a` is sorted no later than `b`" (`cmp a b ≤ 0`): a pinned session
precedes an unpinned one, and otherwise `b.id.localeCompare(a.id) ≤ 0`, i.e.
descending id order. -/
def sessLEb (a b : StoredSession) : Bool :=
  if a.isPinned && !b.isPinned then true
  else if !a.isPinned && b.isPinned then false
  else strLe b.id a.id

/-- Propositional form of `sessLEb`. -/
def sessLE (a b : StoredSession) : Prop := sessLEb a b = true

instance : DecidableRel sessLE := fun a b => instDecidableEqBool (sessLEb a b) true

/-- `getSessions` from mockFirebase.ts lines 95-105: the stored sessions of
the account, sorted by the pinned-first / descending-id comparator.
`Array.prototype.sort` is stable and total on this comparator; it is modelled
by Mathlib's stable `insertionSort`. -/
def getSessions (store : List StoredSession) (uid : String) : List StoredSession :=
  List.insertionSort sessLE (store.filter (fun s => s.userId == uid))

/-! ### Concrete values used by counterexamples and witnesses -/

/-- A file whose summarization has not completed (`processedText` absent). -/
def c1FileA : UploadedFile :=
  ⟨"f1", "a.pdf", "application/pdf", "1.0 KB", 10, none, none⟩

/-- A second unsummarized file. -/
def c1FileB : UploadedFile :=
  ⟨"f2", "b.pdf", "application/pdf", "1.2 KB", 11, none, none⟩

/-- A file whose summarization resolved with the text `T`. -/
def c1FileT : UploadedFile :=
  ⟨"f3", "notes.pdf", "application/pdf", "2.0 KB", 12, none, some "T"⟩

/-- A file staged with raw base64 content (a data URL with payload `QUJD`). -/
def c2File : UploadedFile :=
  ⟨"f9", "notes.pdf", "application/pdf", "3.0 KB", 20,
    some "data:application/pdf;base64,QUJD", none⟩

/-- A session holding `c2File`, as variant 2 hands it to the completion call. -/
def c2Session : StudySession :=
  ⟨"sess_1", "Recursion", [], "graph TB\nA[Recursion] --> B[Waiting for Context...]",
    none, [c2File], false⟩

/-- A provider that resolves every request with a fixed answer. -/
def okProvider : List GenContent → Except Unit String :=
  fun _ => Except.ok "Recursion is self-reference."

/-- A provider whose every call rejects. -/
def failingProvider : List GenContent → Except Unit String :=
  fun _ => Except.error ()

/-- A session with no files and an empty history. -/
def plainSession : StudySession :=
  ⟨"sess_2", "Recursion", [], "graph TB\nA[Recursion] --> B[Waiting for Context...]",
    none, [], false⟩

/-- First user message of the C8 scenario. -/
def c8User1 : Message := ⟨"1", MessageRole.user, "first question", 1⟩

/-- A user message appended to the live state by an overlapping turn after the
first turn captured its snapshot. -/
def c8User2 : Message := ⟨"2", MessageRole.user, "second question", 2⟩

/-- The assistant message the first turn writes. -/
def c8TeacherMsg : Message := ⟨"3", MessageRole.model, "an answer", 3⟩

/-- The first turn's snapshot: only `c8User1` yet. -/
def c8Snapshot : StudySession :=
  ⟨"sess_3", "Recursion", [c8User1], "graph TB", none, [], false⟩

/-- The live state when the teacher call resolves: the overlapping turn has
appended `c8User2`. -/
def c8Live : StudySession :=
  ⟨"sess_3", "Recursion", [c8User1, c8User2], "graph TB", none, [], false⟩

/-- The state the teacher write of the first turn installs. -/
def c8After : StudySession :=
  ⟨"sess_3", "Recursion", [c8User1, c8TeacherMsg], "graph TB", none, [], false⟩

/-- Stored sessions of one account: ids strictly increasing with creation
time (as `createSession` produces), two of them pinned. -/
def c9S1 : StoredSession :=
  ⟨"sess_1", "Algebra", [], "graph TB", none, [], false, "u1", 101⟩

/-- Second stored session (pinned). -/
def c9S2 : StoredSession :=
  ⟨"sess_2", "Biology", [], "graph TB", none, [], true, "u1", 102⟩

/-- Third stored session. -/
def c9S3 : StoredSession :=
  ⟨"sess_3", "Chemistry", [], "graph TB", none, [], false, "u1", 103⟩

/-- Fourth stored session (pinned). -/
def c9S4 : StoredSession :=
  ⟨"sess_4", "Drama", [], "graph TB", none, [], true, "u1", 104⟩

/-- A stored session of a different account. -/
def c9Other : StoredSession :=
  ⟨"sess_5", "Economics", [], "graph TB", none, [], false, "u2", 105⟩

/-- The whole store of the C9 witness. -/
def c9Store : List StoredSession := [c9S1, c9S2, c9S3, c9S4, c9Other]

/-- A small file (data well under the 200000-character limit). -/
def c10File : UploadedFile :=
  ⟨"f5", "small.txt", "text/plain", "0.1 KB", 30, some "data:text/plain;base64,QQ==", none⟩

/-- The stored session `saveFileToSession` targets in the witness. -/
def c10Target : StoredSession :=
  ⟨"sess_7", "Geometry", [], "graph TB", none, [], false, "u1", 107⟩

/-- Another stored session ahead of the target in the store. -/
def c10Ahead : StoredSession :=
  ⟨"sess_6", "Physics", [], "graph TB", none, [], false, "u1", 106⟩

/-! ### Theorems -/

/-- C1, counterexample: a session whose two attached files both lack a
completed summary assembles the context `"\n\n"`, not the empty string the
claim requires — an unsummarized file does contribute a separator slot. -/
theorem c1_counterexample :
    assembleContext [c1FileA, c1FileB] = "\n\n" ∧
      assembleContext [c1FileA, c1FileB] ≠ "" := by
  exact ⟨rfl, by decide⟩

/-- C1 (amended): the assembled context is the JavaScript `join` with
separator `"\n\n"` over every attached file's summary-or-empty entry in
attachment order: zero files yield the empty string; a single summarized file
with summary `t` yields exactly `t` and a single unsummarized file yields the
empty string; and with at least two files every file — summarized or not —
contributes an entry (an unsummarized one an empty entry) followed by a
`"\n\n"` separator before the rest. -/
theorem c1_theorem :
    (assembleContext [] = "") ∧
    (∀ f : UploadedFile, ∀ t : String, f.processedText = some t →
      assembleContext [f] = t) ∧
    (∀ f : UploadedFile, f.processedText = none → assembleContext [f] = "") ∧
    (∀ f : UploadedFile, ∀ fs : List UploadedFile, fs ≠ [] →
      assembleContext (f :: fs) =
        f.processedText.getD "" ++ "\n\n" ++ assembleContext fs) := by
  refine ⟨rfl, ?_, ?_, ?_⟩
  · intro f t ht
    simp [assembleContext, joinSep, ht]
  · intro f ht
    simp [assembleContext, joinSep, ht]
  · intro f fs hfs
    cases fs with
    | nil => exact absurd rfl hfs
    | cons g gs => rfl

/-- C1 witness: the amended theorem evaluated at a single summarized file and
at an unsummarized file followed by a summarized one. -/
theorem c1_witness :
    assembleContext [c1FileT] = "T" ∧
    assembleContext (c1FileA :: [c1FileT]) =
      c1FileA.processedText.getD "" ++ "\n\n" ++ assembleContext [c1FileT] :=
  ⟨c1_theorem.2.1 c1FileT "T" rfl, c1_theorem.2.2.2 c1FileA [c1FileT] (by decide)⟩

/-- C10: on a store whose sessions before the target do not carry the target
id, `saveFileToSession` appends exactly `storedFileCopy f` to the target
session's files and leaves every other stored session unchanged; the persisted
copy keeps the identifier, name, size, MIME type and upload timestamp of the
argument; its raw `data` is removed exactly when it is present and longer than
200000 characters, and the full record (the argument itself) is persisted when
the data is absent or no longer than 200000 characters.  The caller's record
is not modified: the store receives a copy and the argument `f` is untouched
(the embedding is pure; in the source `{ ...fileData }` provides the copy). -/
theorem c10_theorem (pre post : List StoredSession) (s : StoredSession)
    (f : UploadedFile) (hpre : ∀ t ∈ pre, t.id ≠ s.id) :
    (saveFileToSession (pre ++ s :: post) s.id f =
      pre ++ { s with files := s.files ++ [storedFileCopy f] } :: post) ∧
    ((storedFileCopy f).id = f.id ∧ (storedFileCopy f).name = f.name ∧
      (storedFileCopy f).size = f.size ∧ (storedFileCopy f).type = f.type ∧
      (storedFileCopy f).uploadedAt = f.uploadedAt) ∧
    (∀ d : String, f.data = some d → d.length > 200000 →
      (storedFileCopy f).data = none) ∧
    (∀ d : String, f.data = some d → d.length ≤ 200000 → storedFileCopy f = f) ∧
    (f.data = none → storedFileCopy f = f) := by
  refine ⟨?_, ?_, ?_, ?_, ?_⟩
  · induction pre with
    | nil => simp [saveFileToSession]
    | cons t rest ih =>
      have ht : t.id ≠ s.id := hpre t (List.mem_cons_self t rest)
      have hrest : ∀ u ∈ rest, u.id ≠ s.id := fun u hu =>
        hpre u (List.mem_cons_of_mem t hu)
      simp [saveFileToSession, ht, ih hrest]
  · unfold storedFileCopy
    by_cases h : shouldStripData f = true
    · simp [h]
    · simp [h]
  · intro d hd hlen
    unfold storedFileCopy shouldStripData
    simp [hd, hlen]
  · intro d hd hlen
    unfold storedFileCopy shouldStripData
    simp [hd]
    omega
  · intro hd
    unfold storedFileCopy shouldStripData
    simp [hd]

/-- C10 witness: the theorem evaluated on a concrete two-session store and a
small file; the persisted record is the file itself, data included. -/
theorem c10_witness :
    (saveFileToSession ([c10Ahead] ++ c10Target :: []) c10Target.id c10File =
      [c10Ahead] ++
        { c10Target with files := c10Target.files ++ [storedFileCopy c10File] } :: []) ∧
    storedFileCopy c10File = c10File :=
  ⟨(c10_theorem [c10Ahead] [] c10Target c10File (by decide)).1,
    (c10_theorem [c10Ahead] [] c10Target c10File (by decide)).2.2.2.1
      "data:text/plain;base64,QQ==" rfl (by decide)⟩

/-- Totality of the lexicographic comparison. -/
theorem charListLe_total : ∀ x y : List Char, charListLe x y = true ∨ charListLe y x = true
  | [], _ => Or.inl rfl
  | _ :: _, [] => Or.inr rfl
  | a :: as, b :: bs => by
    by_cases hab : a = b
    · subst hab
      rcases charListLe_total as bs with h | h
      · left
        simpa [charListLe] using h
      · right
        simpa [charListLe] using h
    · rcases lt_or_gt_of_ne hab with h | h
      · left
        simp [charListLe, hab, h]
      · right
        simp [charListLe, Ne.symm hab, h]

/-- Transitivity of the lexicographic comparison. -/
theorem charListLe_trans : ∀ x y z : List Char,
    charListLe x y = true → charListLe y z = true → charListLe x z = true
  | [], _, _, _, _ => rfl
  | _ :: _, [], _, hxy, _ => by simp [charListLe] at hxy
  | _ :: _, _ :: _, [], _, hyz => by simp [charListLe] at hyz
  | a :: as, b :: bs, c :: cs, hxy, hyz => by
    by_cases hab : a = b <;> by_cases hbc : b = c
    · subst hab
      subst hbc
      simp only [charListLe, if_pos rfl] at hxy hyz ⊢
      exact charListLe_trans as bs cs hxy hyz
    · subst hab
      simp only [charListLe, if_neg hbc] at hyz
      have h : a < c := of_decide_eq_true hyz
      simp [charListLe, ne_of_lt h, h]
    · subst hbc
      simp only [charListLe, if_neg hab] at hxy
      have h : a < b := of_decide_eq_true hxy
      simp [charListLe, ne_of_lt h, h]
    · simp only [charListLe, if_neg hab] at hxy
      simp only [charListLe, if_neg hbc] at hyz
      have h : a < c := lt_trans (of_decide_eq_true hxy) (of_decide_eq_true hyz)
      simp [charListLe, ne_of_lt h, h]

/-- Unfolding of the comparator relation: `a` sorts no later than `b` iff `a`
is pinned and `b` is not, or their pinned flags agree and `b.id ≤ a.id`. -/
theorem sessLE_iff (a b : StoredSession) :
    sessLE a b ↔
      (a.isPinned = true ∧ b.isPinned = false) ∨
        (a.isPinned = b.isPinned ∧ strLe b.id a.id = true) := by
  unfold sessLE sessLEb
  cases ha : a.isPinned <;> cases hb : b.isPinned <;> simp [ha, hb]

instance : IsTotal StoredSession sessLE :=
  ⟨fun a b => by
    rw [sessLE_iff, sessLE_iff]
    cases ha : a.isPinned <;> cases hb : b.isPinned <;> simp [ha, hb] <;>
      exact charListLe_total b.id.data a.id.data⟩

instance : IsTrans StoredSession sessLE :=
  ⟨fun a b c hab hbc => by
    rw [sessLE_iff] at hab hbc ⊢
    rcases hab with ⟨hpa, hpb⟩ | ⟨hpab, hidab⟩ <;>
      rcases hbc with ⟨hpb2, hpc⟩ | ⟨hpbc, hidbc⟩
    · rw [hpb] at hpb2
      exact absurd hpb2 (by decide)
    · left
      exact ⟨hpa, hpbc ▸ hpb⟩
    · left
      exact ⟨hpab.trans hpb2, hpc⟩
    · right
      exact ⟨hpab.trans hpbc, charListLe_trans _ _ _ hidbc hidab⟩⟩

/-- C9: for an account whose stored session ids order exactly as their
creation times (as the ids minted by `createSession` — `'sess_' +
Date.now().toString(36)` — do for the store's lifetime), `getSessions`
returns exactly that account's sessions: the result is a permutation of the
store's sessions with that `userId`, every returned session belongs to the
account, and in the returned order every pinned session precedes every
unpinned one while sessions with equal pinned flags appear in descending
order of creation time. -/
theorem c9_theorem (store : List StoredSession) (uid : String)
    (hmono : ∀ s ∈ store, ∀ t ∈ store,
      (strLe s.id t.id = true ↔ s.createdAt ≤ t.createdAt)) :
    (getSessions store uid).Perm (store.filter (fun s => s.userId == uid)) ∧
    (∀ s ∈ getSessions store uid, s.userId = uid) ∧
    (getSessions store uid).Pairwise (fun a b =>
      (b.isPinned = true → a.isPinned = true) ∧
      (a.isPinned = b.isPinned → b.createdAt ≤ a.createdAt)) := by
  have hperm : (getSessions store uid).Perm (store.filter (fun s => s.userId == uid)) :=
    List.perm_insertionSort sessLE _
  refine ⟨hperm, ?_, ?_⟩
  · intro s hs
    have hmem := List.mem_filter.mp (hperm.mem_iff.mp hs)
    simpa using hmem.2
  · have hsorted : (getSessions store uid).Sorted sessLE :=
      List.sorted_insertionSort sessLE _
    refine hsorted.imp_of_mem ?_
    intro a b ha hb hab
    have ha' : a ∈ store := (List.mem_filter.mp (hperm.mem_iff.mp ha)).1
    have hb' : b ∈ store := (List.mem_filter.mp (hperm.mem_iff.mp hb)).1
    rcases (sessLE_iff a b).mp hab with ⟨hpa, hpb⟩ | ⟨hpin, hid⟩
    · constructor
      · intro h
        rw [hpb] at h
        exact absurd h (by decide)
      · intro h
        rw [hpa, hpb] at h
        exact absurd h (by decide)
    · constructor
      · intro h
        rw [hpin]
        exact h
      · intro _
        exact (hmono b hb' a ha').mp hid

/-- C9 witness: the theorem evaluated on a concrete five-session store (four
sessions of account `u1`, two of them pinned, one session of another
account). -/
theorem c9_witness :
    (∀ s ∈ c9Store, ∀ t ∈ c9Store,
      (strLe s.id t.id = true ↔ s.createdAt ≤ t.createdAt)) ∧
    ((getSessions c9Store "u1").Perm (c9Store.filter (fun s => s.userId == "u1")) ∧
      (∀ s ∈ getSessions c9Store "u1", s.userId = "u1") ∧
      (getSessions c9Store "u1").Pairwise (fun a b =>
        (b.isPinned = true → a.isPinned = true) ∧
        (a.isPinned = b.isPinned → b.createdAt ≤ a.createdAt))) :=
  ⟨by decide, c9_theorem c9Store "u1" (by decide)⟩

/-- C2, counterexample: variant 2 of `processAgentResponse` hands the
session's files to the completion call, which turns each staged file's raw
base64 content into an inline raw-data part of the request — for a session
holding one file with payload `QUJD`, the `contents` array submitted to the
provider contains that raw payload. -/
theorem c2_counterexample :
    c2File.data = some "data:application/pdf;base64,QUJD" ∧
    GenPart.inlineData "application/pdf" "QUJD" ∈
      requestParts (teacherRequestV2 c2Session "Explain") := by
  exact ⟨rfl, by decide⟩

/-- C2 (amended): only the text-context variant of `submitTurn` keeps raw
file bytes away from the text-completion call — its assembled context depends
solely on the files' derived summaries, so erasing every file's raw `data`
leaves it unchanged; the raw-file (RAG) variant passes every attached file
with nonempty raw content to the completion call as an inline raw-data part
carrying that file's payload. -/
theorem c2_theorem :
    (∀ files : List UploadedFile,
      assembleContext (files.map scrubData) = assembleContext files) ∧
    (∀ s : StudySession, ∀ prompt : String, ∀ f : UploadedFile, ∀ d : String,
      f ∈ s.files → f.data = some d → d ≠ "" →
      GenPart.inlineData (if f.type = "" then "application/pdf" else f.type)
          (dataUrlPayload d) ∈
        requestParts (teacherRequestV2 s prompt)) := by
  constructor
  · intro files
    have hcomp : ((fun f : UploadedFile => f.processedText.getD "") ∘ scrubData) =
        fun f : UploadedFile => f.processedText.getD "" :=
      funext fun f => rfl
    simp [assembleContext, List.map_map, hcomp]
  · intro s prompt f d hf hd hne
    unfold teacherRequestV2 teacherContents requestParts
    rw [List.mem_flatten]
    refine ⟨GenPart.text prompt :: s.files.filterMap filePart, ?_, ?_⟩
    · rw [List.map_append, List.mem_append]
      right
      simp
    · apply List.mem_cons_of_mem
      rw [List.mem_filterMap]
      refine ⟨f, hf, ?_⟩
      simp [filePart, hd, hne]

/-- C2 witness: both halves of the amended theorem evaluated at the concrete
session holding one file with raw payload `QUJD`. -/
theorem c2_witness :
    assembleContext ([c2File].map scrubData) = assembleContext [c2File] ∧
    GenPart.inlineData (if c2File.type = "" then "application/pdf" else c2File.type)
        (dataUrlPayload "data:application/pdf;base64,QUJD") ∈
      requestParts (teacherRequestV2 c2Session "Explain") :=
  ⟨c2_theorem.1 [c2File],
    c2_theorem.2 c2Session "Explain" c2File "data:application/pdf;base64,QUJD"
      (by decide) rfl (by decide)⟩

/-- C3, counterexample: in variant 2 the turn completes with no task pending
and with the diagram and image results already written into the session — the
diagram and illustration steps were awaited before turn completion (and the
narration `await` precedes them), not launched detached. -/
theorem c3_counterexample :
    (processAgentResponseV2 true true okProvider (Except.ok "graph TB\nA --> B")
        "img.png" plainSession "Explain" 100).toOption.map TurnResult.detached =
      some [] ∧
    (processAgentResponseV2 true true okProvider (Except.ok "graph TB\nA --> B")
        "img.png" plainSession "Explain" 100).toOption.map
        (fun r => r.session.mermaidCode) = some "graph TB\nA --> B" ∧
    plainSession.mermaidCode ≠ "graph TB\nA --> B" ∧
    (processAgentResponseV2 true true okProvider (Except.ok "graph TB\nA --> B")
        "img.png" plainSession "Explain" 100).toOption.map
        (fun r => r.session.currentImageUrl) = some (some "img.png") ∧
    plainSession.currentImageUrl ≠ some "img.png" := by
  decide

/-- C3 (amended, the half that holds): in the text-context variant the
narration (when the toggle is on), diagram-regeneration and
illustration-regeneration steps are all launched detached — the turn
completes with only the assistant message appended, the diagram and image
fields untouched, and all of them pending in launch order with none of their
results applied; nothing orders one behind another, and completion does not
wait for any of them.  (In the raw-file variant each of the three is awaited
in sequence — refuted by the counterexample.) -/
theorem c3_theorem (narrationOn : Bool) (textOutcome : Except Unit String)
    (snapshot : StudySession) (userPrompt : String) (now : Nat) :
    ∃ answer : String,
      (processAgentResponseV1 narrationOn textOutcome snapshot userPrompt
          now).session.mermaidCode = snapshot.mermaidCode ∧
      (processAgentResponseV1 narrationOn textOutcome snapshot userPrompt
          now).session.currentImageUrl = snapshot.currentImageUrl ∧
      (processAgentResponseV1 narrationOn textOutcome snapshot userPrompt
          now).session.files = snapshot.files ∧
      (processAgentResponseV1 narrationOn textOutcome snapshot userPrompt
          now).session.messages =
        snapshot.messages ++ [⟨toString (now + 1), MessageRole.model, answer, now⟩] ∧
      (processAgentResponseV1 narrationOn textOutcome snapshot userPrompt
          now).detached =
        (if narrationOn then [DetachedTask.narration answer] else []) ++
          [DetachedTask.diagram snapshot.topic answer,
           DetachedTask.illustration snapshot.topic answer] :=
  ⟨completeText textOutcome (historyOf snapshot) userPrompt
      (assembleContext snapshot.files), rfl, rfl, rfl, rfl, rfl⟩

/-- C4: when the provider's text-completion call for the turn's request
fails, `processAgentResponse` (variant 2, with the API key present so that
the call is actually made) still completes: it returns successfully — no
error escapes — and appends exactly one assistant message, whose content is
the fixed fallback string. -/
theorem c4_theorem (narrationOn : Bool)
    (provider : List GenContent → Except Unit String)
    (architectOutcome : Except Unit String) (imageResult : String)
    (snapshot : StudySession) (userPrompt : String) (now : Nat)
    (hfail : provider (teacherRequestV2 snapshot userPrompt) = Except.error ()) :
    ∃ r : TurnResult,
      processAgentResponseV2 true narrationOn provider architectOutcome imageResult
          snapshot userPrompt now = Except.ok r ∧
      r.session.messages = snapshot.messages ++
        [⟨toString (now + 1), MessageRole.model, teacherFallback, now⟩] := by
  have hfail' : provider (teacherContents (historyOf snapshot) userPrompt
      snapshot.files) = Except.error () := hfail
  have hteacher : generateTeacherResponse true provider (historyOf snapshot)
      userPrompt snapshot.files = Except.ok teacherFallback := by
    unfold generateTeacherResponse
    simp [hfail']
  let teacherMsg : Message := ⟨toString (now + 1), MessageRole.model, teacherFallback, now⟩
  let resultSession : StudySession :=
    { snapshot with
      messages := snapshot.messages ++ [teacherMsg]
      mermaidCode := generateArchitectFlowchart true snapshot.topic architectOutcome
      currentImageUrl := some imageResult }
  refine ⟨⟨resultSession, []⟩, ?_, rfl⟩
  unfold processAgentResponseV2
  rw [hteacher]
  rfl

/-- C4 witness: the theorem evaluated with a provider whose every call
rejects, on the plain empty session. -/
theorem c4_witness :
    failingProvider (teacherRequestV2 plainSession "Explain") = Except.error () ∧
    (∃ r : TurnResult,
      processAgentResponseV2 true true failingProvider (Except.error ()) "img.png"
          plainSession "Explain" 100 = Except.ok r ∧
      r.session.messages = plainSession.messages ++
        [⟨toString 101, MessageRole.model, teacherFallback, 100⟩]) :=
  ⟨rfl, c4_theorem true failingProvider (Except.error ()) "img.png" plainSession
    "Explain" 100 rfl⟩

/-- C5: for an input that is non-empty after trimming and an existing
session, `handleSendMessage` appends exactly one user message (content the
submitted text, timestamp the current time) to the session state, and this
local append is the first action of the trace — it precedes the awaited
persistence write, which itself precedes the launch of the inference turn, so
the append happens before any awaited network call begins. -/
theorem c5_theorem (input : String) (s : StudySession) (now : Nat)
    (hin : ¬ jsTrim input = "") :
    ∃ userMsg : Message,
      userMsg.role = MessageRole.user ∧ userMsg.content = input ∧
      userMsg.timestamp = now ∧
      (handleSendMessage input (some s) now).1 =
        some { s with messages := s.messages ++ [userMsg] } ∧
      (handleSendMessage input (some s) now).2 =
        [OrchestratorEvent.appendLocal userMsg,
         OrchestratorEvent.awaitPersistMessage s.id userMsg,
         OrchestratorEvent.launchTurn { s with messages := s.messages ++ [userMsg] }
           input] ∧
      (handleSendMessage input (some s) now).2.countP isUserAppend = 1 ∧
      ((handleSendMessage input (some s) now).2.takeWhile
          (fun e => !isAwaitEvent e)).countP isUserAppend = 1 := by
  refine ⟨⟨toString now, MessageRole.user, input, now⟩, rfl, rfl, rfl, ?_, ?_, ?_, ?_⟩
  all_goals simp only [handleSendMessage, if_neg hin] <;> rfl

/-- C5 witness: the theorem evaluated at a concrete prompt, session and
clock. -/
theorem c5_witness :
    ¬ jsTrim "Explain recursion" = "" ∧
    (∃ userMsg : Message,
      userMsg.role = MessageRole.user ∧ userMsg.content = "Explain recursion" ∧
      userMsg.timestamp = 100 ∧
      (handleSendMessage "Explain recursion" (some plainSession) 100).1 =
        some { plainSession with messages := plainSession.messages ++ [userMsg] } ∧
      (handleSendMessage "Explain recursion" (some plainSession) 100).2 =
        [OrchestratorEvent.appendLocal userMsg,
         OrchestratorEvent.awaitPersistMessage plainSession.id userMsg,
         OrchestratorEvent.launchTurn
           { plainSession with messages := plainSession.messages ++ [userMsg] }
           "Explain recursion"] ∧
      (handleSendMessage "Explain recursion" (some plainSession) 100).2.countP
          isUserAppend = 1 ∧
      ((handleSendMessage "Explain recursion" (some plainSession) 100).2.takeWhile
          (fun e => !isAwaitEvent e)).countP isUserAppend = 1) :=
  ⟨by decide, c5_theorem "Explain recursion" plainSession 100 (by decide)⟩

/-- C6: a resolving diagram-regeneration callback replaces the session's
diagram field wholesale — every other field keeps its value and the prior
diagram content does not enter the result — so of two such writes applied in
either order, the later-applied one's value is the field's final value,
regardless of which call was launched first (the write carries only its own
resolved value); on a vanished session (`prev` null) the write is skipped. -/
theorem c6_theorem (s : StudySession) (a b : String) :
    applyDiagramWrite a (some s) = some { s with mermaidCode := a } ∧
    applyDiagramWrite b (applyDiagramWrite a (some s)) =
      some { s with mermaidCode := b } ∧
    applyDiagramWrite a (applyDiagramWrite b (some s)) =
      some { s with mermaidCode := a } ∧
    applyDiagramWrite a none = none :=
  ⟨rfl, rfl, rfl, rfl⟩

/-- C7: with an input that trims to the empty string, or with no active
session, `handleSendMessage` is a no-op: the session state is returned
unchanged and the trace is empty — nothing is appended, nothing is persisted,
no inference turn is launched, and no error is produced (the function has no
failure outcome). -/
theorem c7_theorem (input : String) (session : Option StudySession) (now : Nat)
    (h : jsTrim input = "" ∨ session = none) :
    handleSendMessage input session now = (session, []) := by
  rcases h with h | h
  · cases session with
    | none => rfl
    | some s => simp only [handleSendMessage, if_pos h]
  · subst h
    rfl

/-- C7 witness: the theorem evaluated at a whitespace-only input with an
active session present. -/
theorem c7_witness :
    (jsTrim "   " = "" ∨ (some plainSession : Option StudySession) = none) ∧
    handleSendMessage "   " (some plainSession) 5 = (some plainSession, []) :=
  ⟨Or.inl (by decide), c7_theorem "   " (some plainSession) 5 (Or.inl (by decide))⟩

/-- Appending a message whose timestamp bounds every existing one preserves
the non-decreasing-timestamps invariant. -/
theorem timestampsSorted_append : ∀ (l : List Message) (m : Message),
    timestampsSorted l = true → (∀ x ∈ l, x.timestamp ≤ m.timestamp) →
    timestampsSorted (l ++ [m]) = true
  | [], _, _, _ => rfl
  | [a], m, _, hm => by
    have ha : a.timestamp ≤ m.timestamp := hm a (by simp)
    simp [timestampsSorted, ha]
  | a :: b :: rest2, m, hl, hm => by
    simp only [timestampsSorted, Bool.and_eq_true, decide_eq_true_eq,
      List.cons_append] at hl ⊢
    refine ⟨hl.1, ?_⟩
    have hrec := timestampsSorted_append (b :: rest2) m hl.2
      (fun x hx => hm x (List.mem_cons_of_mem a hx))
    simpa using hrec

/-- C8, counterexample: the assistant-message write of `processAgentResponse`
installs its snapshot plus the new message as the whole session state; when
the live state already holds a message the snapshot lacks (here `c8User2`,
appended by an overlapping `submitTurn` during the awaited teacher call), the
write removes it from the message sequence instead of appending. -/
theorem c8_counterexample :
    teacherWriteLive c8Snapshot c8TeacherMsg (some c8Live) = some c8After ∧
    c8User2 ∈ c8Live.messages ∧ c8User2 ∉ c8After.messages := by
  decide

/-- C8 (amended): each orchestrator operation appends exactly one message to
the session state it operates on — the prior sequence survives as an
unchanged prefix, nothing is reordered or removed from that state — and,
when the existing timestamps are non-decreasing and bounded by the current
clock, the extended sequence's timestamps remain non-decreasing; this gives
the claimed invariant whenever operations do not overlap.  (The
assistant-message write applies this to the turn's *snapshot* and installs
the result wholesale, so under overlap it can remove a message that reached
the live state after the snapshot was taken — refuted for the live state by
the counterexample.) -/
theorem c8_theorem (s : StudySession) (input userPrompt : String) (now : Nat)
    (f : UploadedFile) (narrationOn : Bool) (textOutcome : Except Unit String)
    (hin : ¬ jsTrim input = "")
    (hsorted : timestampsSorted s.messages = true)
    (hnow : ∀ m ∈ s.messages, m.timestamp ≤ now) :
    ((handleSendMessage input (some s) now).1 =
        some { s with messages :=
          s.messages ++ [⟨toString now, MessageRole.user, input, now⟩] } ∧
      timestampsSorted
        (s.messages ++ [⟨toString now, MessageRole.user, input, now⟩]) = true) ∧
    ((processAgentResponseV1 narrationOn textOutcome s userPrompt now).session =
        { s with messages := s.messages ++
          [⟨toString (now + 1), MessageRole.model,
            completeText textOutcome (historyOf s) userPrompt
              (assembleContext s.files), now⟩] } ∧
      timestampsSorted (s.messages ++
        [⟨toString (now + 1), MessageRole.model,
          completeText textOutcome (historyOf s) userPrompt
            (assembleContext s.files), now⟩]) = true) ∧
    ((handleFileUploadUpdate s f now).messages = s.messages ++
        [⟨toString now, MessageRole.model,
          "[System] The Historian has read \"" ++ f.name ++
            "\". Summary added to context memory.", now⟩] ∧
      (handleFileUploadUpdate s f now).files = s.files ++ [f] ∧
      timestampsSorted (s.messages ++
        [⟨toString now, MessageRole.model,
          "[System] The Historian has read \"" ++ f.name ++
            "\". Summary added to context memory.", now⟩]) = true) := by
  refine ⟨⟨?_, ?_⟩, ⟨rfl, ?_⟩, ⟨rfl, rfl, ?_⟩⟩
  · simp only [handleSendMessage, if_neg hin]
  all_goals
    exact timestampsSorted_append s.messages _ hsorted hnow

/-- C8 witness: the amended theorem evaluated on a one-message session with a
later clock. -/
theorem c8_witness :
    (¬ jsTrim "Explain" = "" ∧ timestampsSorted c8Snapshot.messages = true ∧
      (∀ m ∈ c8Snapshot.messages, m.timestamp ≤ 50)) ∧
    ((handleSendMessage "Explain" (some c8Snapshot) 50).1 =
        some { c8Snapshot with messages :=
          c8Snapshot.messages ++ [⟨toString 50, MessageRole.user, "Explain", 50⟩] } ∧
      timestampsSorted
        (c8Snapshot.messages ++
          [⟨toString 50, MessageRole.user, "Explain", 50⟩]) = true) ∧
    ((processAgentResponseV1 true (Except.ok "an answer") c8Snapshot "Explain"
          50).session =
        { c8Snapshot with messages := c8Snapshot.messages ++
          [⟨toString 51, MessageRole.model,
            completeText (Except.ok "an answer") (historyOf c8Snapshot) "Explain"
              (assembleContext c8Snapshot.files), 50⟩] } ∧
      timestampsSorted (c8Snapshot.messages ++
        [⟨toString 51, MessageRole.model,
          completeText (Except.ok "an answer") (historyOf c8Snapshot) "Explain"
            (assembleContext c8Snapshot.files), 50⟩]) = true) ∧
    ((handleFileUploadUpdate c8Snapshot c1FileA 50).messages =
        c8Snapshot.messages ++
          [⟨toString 50, MessageRole.model,
            "[System] The Historian has read \"" ++ c1FileA.name ++
              "\". Summary added to context memory.", 50⟩] ∧
      (handleFileUploadUpdate c8Snapshot c1FileA 50).files =
        c8Snapshot.files ++ [c1FileA] ∧
      timestampsSorted (c8Snapshot.messages ++
        [⟨toString 50, MessageRole.model,
          "[System] The Historian has read \"" ++ c1FileA.name ++
            "\". Summary added to context memory.", 50⟩]) = true) :=
  ⟨⟨by decide, by decide, by decide⟩,
    c8_theorem c8Snapshot "Explain" "Explain" 50 c1FileA true (Except.ok "an answer")
      (by decide) (by decide) (by decide)⟩

end ScholarFlow
